import Mathlib

/-!
Verification development for the native voice client core (Rust sources:
`lib.rs`, `protocol.rs`, `payloads.rs`, `player.rs`, `state.rs`, `error.rs`).
The Rust code is shallowly embedded: machine integers become `Nat` with
explicit `% 2^w` where wrapping matters, fallible operations return
`Except`, and in-place mutation is explicit state passing.  External
collaborators (TLS/WebSocket transport, the opus encoder, the XSalsa20
Poly1305 cipher, the UDP socket, wall-clock time) are abstracted as
parameters, with their observable contracts (lengths, error cases) kept.
-/

deriving instance DecidableEq for Except

namespace NativeVoice

/-! ## Byte-level helpers (`u16::to_be_bytes`, `u32::to_be_bytes`, slice writes) -/

/-- Big-endian bytes of a `u16` (`u16::to_be_bytes`). -/
def be16 (n : Nat) : List Nat :=
  [n / 2 ^ 8 % 2 ^ 8, n % 2 ^ 8]

/-- Big-endian bytes of a `u32` (`u32::to_be_bytes`). -/
def be32 (n : Nat) : List Nat :=
  [n / 2 ^ 24 % 2 ^ 8, n / 2 ^ 16 % 2 ^ 8, n / 2 ^ 8 % 2 ^ 8, n % 2 ^ 8]

/-- Reassemble a `u16` from two big-endian bytes (`u16::from_be_bytes`). -/
def fromBe16 (hi lo : Nat) : Nat :=
  2 ^ 8 * hi + lo

/-- Overwrite `l[off .. off + src.length]` with `src`, the effect of Rust's
`slice[off..off+src.len()].copy_from_slice(&src)` on the backing list. -/
def listWrite (l : List Nat) (off : Nat) (src : List Nat) : List Nat :=
  l.take off ++ src ++ l.drop (off + src.length)

/-! ## `error.rs`: the `ProtocolError` taxonomy -/

/-- Embedding of `ProtocolError` (error.rs).  External error payloads are
reduced to a message string; `Closed` carries the u16 close code. -/
inductive ProtoErr where
  | serde (msg : String)
  | opus (msg : String)
  | nacl
  | webSocket (msg : String)
  | io (msg : String)
  | closed (code : Nat)
deriving DecidableEq

/-- Embedding of `custom_error` (error.rs): an `Io` error made from a text. -/
def custom_error (text : String) : ProtoErr :=
  .io text

/-! ## `payloads.rs`: encryption modes and negotiation -/

/-- Embedding of `EncryptionMode` (payloads.rs).  The Rust enum derives
`Ord` on the discriminants 0, 1, 2, so Lite > Suffix > Full. -/
inductive EncryptionMode where
  | XSalsa20Poly1305
  | XSalsa20Poly1305Suffix
  | XSalsa20Poly1305Lite
deriving DecidableEq

/-- The Rust discriminant of each `EncryptionMode` variant, which is what
the derived `Ord` instance compares. -/
def EncryptionMode.toNat : EncryptionMode → Nat
  | .XSalsa20Poly1305 => 0
  | .XSalsa20Poly1305Suffix => 1
  | .XSalsa20Poly1305Lite => 2

/-- Embedding of `FromStr for EncryptionMode` (payloads.rs). -/
def EncryptionMode.from_str (s : String) : Except ProtoErr EncryptionMode :=
  if s = "xsalsa20_poly1305_lite" then .ok .XSalsa20Poly1305Lite
  else if s = "xsalsa20_poly1305_suffix" then .ok .XSalsa20Poly1305Suffix
  else if s = "xsalsa20_poly1305" then .ok .XSalsa20Poly1305
  else .error (custom_error "unknown encryption mode")

/-- Embedding of `Into<String> for EncryptionMode` (payloads.rs). -/
def EncryptionMode.toWire : EncryptionMode → String
  | .XSalsa20Poly1305 => "xsalsa20_poly1305"
  | .XSalsa20Poly1305Suffix => "xsalsa20_poly1305_suffix"
  | .XSalsa20Poly1305Lite => "xsalsa20_poly1305_lite"

/-- One step of Rust's `Iterator::max` fold under the derived `Ord`:
keeps the later element on ties, as `Iterator::max` does. -/
def maxMode (a b : EncryptionMode) : EncryptionMode :=
  if a.toNat ≤ b.toNat then b else a

/-- The advertised mode strings that parse, in order: the Rust pipeline
`modes.iter().map(|s| s.parse::<EncryptionMode>()).filter_map(Result::ok)`. -/
def parsedModes (modes : List String) : List EncryptionMode :=
  modes.filterMap fun s =>
    match EncryptionMode.from_str s with
    | .ok m => some m
    | .error _ => none

/-- Embedding of `Ready::get_encryption_mode` (payloads.rs): the `max()` of
the parsed modes, or an error when none parse. -/
def get_encryption_mode (modes : List String) : Except ProtoErr EncryptionMode :=
  match parsedModes modes with
  | [] => .error (custom_error "No best supported encryption mode found")
  | x :: xs => .ok (xs.foldl maxMode x)

/-! ## `lib.rs`: close-code classification and the `run()` resolution -/

/-- Embedding of `code_can_be_handled` (lib.rs): a close code is resumable
unless it is 1000, 4014 or 4015. -/
def code_can_be_handled (code : Nat) : Bool :=
  code != 1000 && code != 4014 && code != 4015

/-- How the host future is resolved (lib.rs): `run`'s loop either completes
the future with `None` or rejects it with one of the three exception
kinds. -/
inductive RunResolution where
  | null
  | reconnect (code : Nat)
  | connectionClosed (code : Nat)
  | connectionError
deriving DecidableEq

/-- Embedding of `From<ProtocolError> for PyErr` (lib.rs). -/
def pyErrOf : ProtoErr → RunResolution
  | .closed code =>
      if code_can_be_handled code then .reconnect code else .connectionClosed code
  | _ => .connectionError

/-- How `VoiceConnection::run`'s polling thread resolves the host future when
`poll()` returns an error (lib.rs):
a handled `Closed` completes the future with `None`, everything else rejects
it with `PyErr::from`. -/
def run_resolution (e : ProtoErr) : RunResolution :=
  match e with
  | .closed code => if code_can_be_handled code then .null else pyErrOf (.closed code)
  | _ => pyErrOf e

/-! ## `state.rs`: the shared lifecycle register -/

/-- Embedding of the value held by `PlayingState` (state.rs): one of the five
lifecycle states.  The condition variable is a liveness device and carries no
data, so only the register's value is modelled. -/
inductive LifecycleState where
  | Disconnected
  | Connected
  | Playing
  | Paused
  | Finished
deriving DecidableEq

/-! ## UTF-8 validation

Model of `std::str::from_utf8`'s acceptance condition (Unicode Table 3-7),
used by `udp_discovery` to decode the discovered IP bytes. -/

/-- Whether a byte is a UTF-8 continuation byte (0x80..=0xBF). -/
def isCont (c : Nat) : Bool :=
  decide (0x80 ≤ c ∧ c ≤ 0xBF)

/-- Whether a byte list is valid UTF-8, per the acceptance table of Rust's
`std::str::from_utf8`. -/
def isValidUtf8 : List Nat → Bool
  | [] => true
  | b :: rest =>
    if b ≤ 0x7F then isValidUtf8 rest
    else if 0xC2 ≤ b ∧ b ≤ 0xDF then
      match rest with
      | c1 :: r => isCont c1 && isValidUtf8 r
      | [] => false
    else if b = 0xE0 then
      match rest with
      | c1 :: c2 :: r => decide (0xA0 ≤ c1 ∧ c1 ≤ 0xBF) && isCont c2 && isValidUtf8 r
      | _ => false
    else if (0xE1 ≤ b ∧ b ≤ 0xEC) ∨ (0xEE ≤ b ∧ b ≤ 0xEF) then
      match rest with
      | c1 :: c2 :: r => isCont c1 && isCont c2 && isValidUtf8 r
      | _ => false
    else if b = 0xED then
      match rest with
      | c1 :: c2 :: r => decide (0x80 ≤ c1 ∧ c1 ≤ 0x9F) && isCont c2 && isValidUtf8 r
      | _ => false
    else if b = 0xF0 then
      match rest with
      | c1 :: c2 :: c3 :: r =>
          decide (0x90 ≤ c1 ∧ c1 ≤ 0xBF) && isCont c2 && isCont c3 && isValidUtf8 r
      | _ => false
    else if 0xF1 ≤ b ∧ b ≤ 0xF3 then
      match rest with
      | c1 :: c2 :: c3 :: r => isCont c1 && isCont c2 && isCont c3 && isValidUtf8 r
      | _ => false
    else if b = 0xF4 then
      match rest with
      | c1 :: c2 :: c3 :: r =>
          decide (0x80 ≤ c1 ∧ c1 ≤ 0x8F) && isCont c2 && isCont c3 && isValidUtf8 r
      | _ => false
    else false

/-! ## IPv4 address parsing

Model of Rust std's `Ipv4Addr::from_str` (`"203.0.113.5".parse::<Ipv4Addr>()`):
exactly four dot-separated decimal octets of one to three digits, each at most
255, with no leading zeros; every other string — an IPv6 address included —
is rejected. -/

/-- Split a character list at every `'.'`, an adjacent or trailing dot
yielding an empty group. -/
def splitOnDot : List Char → List (List Char)
  | [] => [[]]
  | c :: rest =>
    if c = '.' then [] :: splitOnDot rest
    else
      match splitOnDot rest with
      | g :: gs => (c :: g) :: gs
      | [] => [[c]]

/-- Parse one decimal octet of an IPv4 address. -/
def parseOctet (cs : List Char) : Option Nat :=
  if cs ≠ [] ∧ cs.length ≤ 3 ∧ cs.all (fun c => c.isDigit) = true ∧
      (cs.length = 1 ∨ cs.head? ≠ some '0') then
    let v := cs.foldl (fun a c => 10 * a + (c.toNat - 48)) 0
    if v ≤ 255 then some v else none
  else none

/-- Parse a dotted-quad IPv4 address; `none` mirrors `AddrParseError`. -/
def parseIpv4 (s : String) : Option (Nat × Nat × Nat × Nat) :=
  match (splitOnDot s.data).map parseOctet with
  | [some a, some b, some c, some d] => some (a, b, c, d)
  | _ => none

/-! ## `protocol.rs`: the signalling engine state and `poll()` -/

/-- One frame written to the control WebSocket, as `protocol.rs` serialises it
(payloads.rs gives the JSON shape; the model keeps the typed content). -/
inductive SentMsg where
  | heartbeat (ms : Nat)
  | identify (server_id user_id session_id token : String)
  | resume (token server_id session_id : String)
  | selectProtocol (address : List Nat) (port : Nat) (mode : EncryptionMode)
  | speaking (flags : Nat)
  | closeFrame (code : Nat) (reason : String)
deriving DecidableEq

/-- Embedding of the mutable fields of `DiscordVoiceProtocol` (protocol.rs).
Ack round-trip samples and instants are abstract time units (`Nat`), the
WebSocket is replaced by the list of frames written to it, and the UDP socket
handle by the flag that `handle_ready` has bound one. -/
structure VoiceState where
  endpoint : String
  endpoint_ip : String
  user_id : String
  server_id : String
  session_id : String
  token : String
  recent_acks : List Nat
  close_code : Nat
  lifecycle : LifecycleState
  socket : Bool
  port : Nat
  heartbeat_interval : Nat
  read_timeout : Option Nat
  last_heartbeat : Nat
  ssrc : Nat
  encryption : EncryptionMode
  secret_key : List Nat
  sent : List SentMsg
deriving DecidableEq

/-- The protocol value `ProtocolBuilder::connect` returns (protocol.rs):
`heartbeat_interval` starts at `u64::MAX`, the key all-zero, the lifecycle
register `Disconnected`. -/
def initialState (endpoint user_id server_id session_id token : String) : VoiceState :=
  { endpoint := endpoint, endpoint_ip := "", user_id := user_id,
    server_id := server_id, session_id := session_id, token := token,
    recent_acks := [], close_code := 0, lifecycle := .Disconnected,
    socket := false, port := 0, heartbeat_interval := 2 ^ 64 - 1,
    read_timeout := none, last_heartbeat := 0, ssrc := 0,
    encryption := .XSalsa20Poly1305, secret_key := List.replicate 32 0,
    sent := [] }

/-- Embedding of `Ready` (payloads.rs), the typed READY payload. -/
structure Ready where
  ssrc : Nat
  ip : String
  port : Nat
  modes : List String
deriving DecidableEq

/-- Embedding of `DiscordVoiceProtocol::heartbeat` (protocol.rs): write a
heartbeat frame carrying the wall clock and stamp `last_heartbeat`. -/
def heartbeatSend (s : VoiceState) (now : Nat) : VoiceState :=
  { s with sent := s.sent ++ [.heartbeat now], last_heartbeat := now }

/-- The due-heartbeat check at the top of `poll()` (protocol.rs): send a
heartbeat when `last_heartbeat.elapsed() >= heartbeat_interval`. -/
def pollPre (s : VoiceState) (now : Nat) : VoiceState :=
  if s.heartbeat_interval ≤ now - s.last_heartbeat then heartbeatSend s now else s

/-- The request datagram `udp_discovery` builds (protocol.rs): a zeroed
70-byte buffer with type 1, length 70 and the SSRC written big-endian. -/
def udp_discovery_request (ssrc : Nat) : List Nat :=
  listWrite (listWrite (listWrite (List.replicate 70 0) 0 (be16 1)) 2 (be16 70)) 4 (be32 ssrc)

/-- The receive buffer after `socket.recv(&mut buffer)` on a zeroed
`[u8; 70]`: the datagram's first bytes, zero-padded to 70. -/
def padTo70 (l : List Nat) : List Nat :=
  (l ++ List.replicate 70 0).take 70

/-- Embedding of `Iterator::position(|&b| b == 0)`: the index of the first
zero byte. -/
def positionZero : List Nat → Option Nat
  | [] => none
  | b :: rest => if b = 0 then some 0 else (positionZero rest).map (· + 1)

/-- The response-parsing half of `udp_discovery` (protocol.rs): scan
`buffer[4..]` for the first zero byte, decode the bytes before it as UTF-8,
and read the port big-endian from bytes 68 and 69. -/
def parse_discovery_response (buffer : List Nat) : Except ProtoErr (List Nat × Nat) :=
  match positionZero (buffer.drop 4) with
  | none => .error (custom_error "could not find end of IP")
  | some ip_end =>
    let ip_slice := (buffer.drop 4).take ip_end
    if isValidUtf8 ip_slice then
      .ok (ip_slice, fromBe16 (buffer.getD 68 0) (buffer.getD 69 0))
    else
      .error (custom_error "invalid IP found (not UTF-8")

/-- One `udp_discovery` attempt (protocol.rs), with the peer's reply to
attempt `n` supplied by the oracle `resp`. -/
def udp_discovery (resp : Nat → List Nat) (n : Nat) : Except ProtoErr (List Nat × Nat) :=
  parse_discovery_response (padTo70 (resp n))

/-- The retry loop around `udp_discovery` in `handle_ready` (protocol.rs),
with the recursion structured on the retries still allowed (`5 - retries` in
the source's counter): attempt `n`, and on an error retry with `n + 1` while
a retry remains, else return that error. -/
def discoveryAttempts (resp : Nat → List Nat) (n : Nat) : Nat → Except ProtoErr (List Nat × Nat)
  | 0 => udp_discovery resp n
  | remaining + 1 =>
    match udp_discovery resp n with
    | .ok x => .ok x
    | .error _ => discoveryAttempts resp (n + 1) remaining

/-- The discovery loop as `handle_ready` enters it: retries start at 0, so up
to 5 retries follow the first attempt. -/
def discoveryLoop (resp : Nat → List Nat) : Except ProtoErr (List Nat × Nat) :=
  discoveryAttempts resp 0 5

/-- Embedding of `DiscordVoiceProtocol::handle_ready` (protocol.rs): store
ssrc and port, negotiate the mode, parse the advertised IP strictly as IPv4,
bind the UDP socket, run discovery with up to 5 retries, then send
SELECT_PROTOCOL.  Errors keep the mutations made before they arose. -/
def handle_ready (s : VoiceState) (resp : Nat → List Nat) (r : Ready) :
    VoiceState × Except ProtoErr Unit :=
  let s1 := { s with ssrc := r.ssrc, port := r.port }
  match get_encryption_mode r.modes with
  | .error e => (s1, .error e)
  | .ok m =>
    let s2 := { s1 with encryption := m, endpoint_ip := r.ip }
    match parseIpv4 r.ip with
    | none => (s2, .error (custom_error "invalid IP address"))
    | some _ =>
      let s3 := { s2 with socket := true }
      match discoveryLoop resp with
      | .error e => (s3, .error e)
      | .ok (address, prt) =>
        ({ s3 with sent := s3.sent ++ [.selectProtocol address prt m] }, .ok ())

/-- The typed content of a received text frame, after the two-step serde
parse in `poll()` (protocol.rs / payloads.rs).  `unhandled` covers the
opcodes the match arm ignores. -/
inductive ReceivedPayload where
  | hello (heartbeat_interval : Nat)
  | ready (r : Ready)
  | heartbeat
  | heartbeatAck
  | sessionDescription (mode : String) (secret_key : List Nat)
  | unhandled
deriving DecidableEq

/-- What one `ws.read_message()` in `poll()` yields: a timed-out read, a text
frame, a close frame (with an optional code), or another frame kind. -/
inductive PollInput where
  | timeout
  | text (p : ReceivedPayload)
  | closeFrame (code : Option Nat)
  | other
deriving DecidableEq

/-- Embedding of `DiscordVoiceProtocol::poll` (protocol.rs): send a heartbeat
if due, then dispatch one read message.  `now` is the poll instant and `resp`
the discovery-response oracle used by the READY arm. -/
def poll (s : VoiceState) (now : Nat) (resp : Nat → List Nat) (input : PollInput) :
    VoiceState × Except ProtoErr Unit :=
  let s := pollPre s now
  match input with
  | .timeout => (s, .ok ())
  | .other => (s, .ok ())
  | .closeFrame code =>
    let s := { s with close_code := code.getD s.close_code, lifecycle := .Disconnected }
    (s, .error (.closed s.close_code))
  | .text p =>
    match p with
    | .hello interval =>
      ({ s with heartbeat_interval := min interval 5000,
                read_timeout := some 5000, last_heartbeat := now }, .ok ())
    | .ready r => handle_ready s resp r
    | .heartbeat => (heartbeatSend s now, .ok ())
    | .heartbeatAck =>
      let delta := now - s.last_heartbeat
      let acks := if s.recent_acks.length = 20 then s.recent_acks.drop 1 else s.recent_acks
      ({ s with recent_acks := acks ++ [delta] }, .ok ())
    | .sessionDescription mode key =>
      match EncryptionMode.from_str mode with
      | .error e => (s, .error e)
      | .ok m =>
        ({ s with encryption := m, secret_key := key, lifecycle := .Connected }, .ok ())
    | .unhandled => (s, .ok ())

/-- Embedding of `DiscordVoiceProtocol::close` (protocol.rs): set the shared
lifecycle register to Disconnected, remember the code, and send a close frame
with the reason "closing connection". -/
def close (s : VoiceState) (code : Nat) : VoiceState :=
  { s with lifecycle := .Disconnected, close_code := code,
           sent := s.sent ++ [.closeFrame code "closing connection"] }

/-! ## `lib.rs`: the `VoiceConnection` façade -/

/-- Embedding of the `VoiceConnection` pyclass (lib.rs): the mutex-guarded
protocol and whether an `AudioPlayer` is attached (`player.is_some()`). -/
structure VoiceConnection where
  protocol : VoiceState
  player : Bool
deriving DecidableEq

/-- Embedding of `VoiceConnection::disconnect` (lib.rs): `close(1000)`. -/
def VoiceConnection.disconnect (c : VoiceConnection) : VoiceConnection :=
  { c with protocol := close c.protocol 1000 }

/-- Embedding of `VoiceConnection::stop` (lib.rs): with a player attached,
`AudioPlayer::stop` sets the shared lifecycle register to Finished
(player.rs / state.rs); with no player it does nothing. -/
def VoiceConnection.stop (c : VoiceConnection) : VoiceConnection :=
  if c.player then { c with protocol := { c.protocol with lifecycle := .Finished } } else c

/-- Embedding of `VoiceConnection::is_playing` (lib.rs): false with no
player, else whether the shared register reads Playing. -/
def VoiceConnection.is_playing (c : VoiceConnection) : Bool :=
  c.player && (c.protocol.lifecycle == .Playing)

/-! ## Lemmas about mode negotiation -/

theorem toNat_maxMode (a b : EncryptionMode) :
    (maxMode a b).toNat = max a.toNat b.toNat := by
  cases a <;> cases b <;> decide

theorem maxMode_cases (a b : EncryptionMode) : maxMode a b = a ∨ maxMode a b = b := by
  cases a <;> cases b <;> decide

theorem foldl_maxMode_mem (x : EncryptionMode) (xs : List EncryptionMode) :
    xs.foldl maxMode x = x ∨ xs.foldl maxMode x ∈ xs := by
  induction xs generalizing x with
  | nil => simp
  | cons y ys ih =>
    simp only [List.foldl_cons]
    rcases ih (maxMode x y) with h | h
    · rcases maxMode_cases x y with h2 | h2 <;> rw [h, h2]
      · exact Or.inl rfl
      · exact Or.inr (List.mem_cons_self _ _)
    · exact Or.inr (List.mem_cons_of_mem _ h)

theorem le_foldl_maxMode (x : EncryptionMode) (xs : List EncryptionMode) :
    ∀ y : EncryptionMode, (y = x ∨ y ∈ xs) →
      y.toNat ≤ (xs.foldl maxMode x).toNat := by
  induction xs generalizing x with
  | nil =>
    rintro y (rfl | h)
    · simp
    · cases h
  | cons z zs ih =>
    rintro y (rfl | hz)
    · refine Nat.le_trans ?_ (ih (maxMode y z) (maxMode y z) (Or.inl rfl))
      rw [toNat_maxMode]
      exact Nat.le_max_left _ _
    · rcases List.mem_cons.mp hz with rfl | hmem
      · refine Nat.le_trans ?_ (ih (maxMode x y) (maxMode x y) (Or.inl rfl))
        rw [toNat_maxMode]
        exact Nat.le_max_right _ _
      · exact ih (maxMode x z) y (Or.inr hmem)

/-! ## Claim theorems C2 and C3 -/

/-- C2: for every list of peer-advertised encryption-mode strings, the chosen
mode is the maximum of the modes that parse, under the total ordering
Lite > Suffix > Full (compared through the Rust discriminants); if no string
parses, `get_encryption_mode` fails with an error, which fails the
handshake. -/
theorem c2_mode_negotiation (modes : List String) :
    (get_encryption_mode modes =
        .error (custom_error "No best supported encryption mode found") ↔
      parsedModes modes = [])
    ∧ (∀ m : EncryptionMode, get_encryption_mode modes = .ok m →
        m ∈ parsedModes modes ∧
          ∀ x ∈ parsedModes modes, x.toNat ≤ m.toNat)
    ∧ EncryptionMode.toNat .XSalsa20Poly1305 < EncryptionMode.toNat .XSalsa20Poly1305Suffix
    ∧ EncryptionMode.toNat .XSalsa20Poly1305Suffix < EncryptionMode.toNat .XSalsa20Poly1305Lite := by
  refine ⟨?_, ?_, by decide, by decide⟩
  · unfold get_encryption_mode
    cases h : parsedModes modes with
    | nil => simp
    | cons x xs => simp
  · intro m hm
    unfold get_encryption_mode at hm
    cases h : parsedModes modes with
    | nil => rw [h] at hm; cases hm
    | cons x xs =>
      rw [h] at hm
      have hm' : xs.foldl maxMode x = m := by
        cases hm
        rfl
      constructor
      · rw [← hm']
        rcases foldl_maxMode_mem x xs with h2 | h2
        · rw [h2]; exact List.mem_cons_self _ _
        · exact List.mem_cons_of_mem _ h2
      · intro y hy
        rw [← hm']
        rcases List.mem_cons.mp hy with rfl | hmem
        · exact le_foldl_maxMode y xs y (Or.inl rfl)
        · exact le_foldl_maxMode x xs y (Or.inr hmem)

/-- Witness for C2 at a concrete mode list: the lite mode wins over the plain
mode, and it bounds every parsed mode. -/
theorem c2_mode_negotiation_witness :
    EncryptionMode.XSalsa20Poly1305Lite ∈
        parsedModes ["xsalsa20_poly1305", "junk", "xsalsa20_poly1305_lite"]
      ∧ ∀ x ∈ parsedModes ["xsalsa20_poly1305", "junk", "xsalsa20_poly1305_lite"],
          x.toNat ≤ EncryptionMode.toNat .XSalsa20Poly1305Lite :=
  (c2_mode_negotiation ["xsalsa20_poly1305", "junk", "xsalsa20_poly1305_lite"]).2.1
    .XSalsa20Poly1305Lite (by decide)

/-! ## Frame lemmas for `poll` -/

theorem pollPre_fields (s : VoiceState) (now : Nat) :
    (pollPre s now).heartbeat_interval = s.heartbeat_interval
    ∧ (pollPre s now).secret_key = s.secret_key
    ∧ (pollPre s now).lifecycle = s.lifecycle
    ∧ (pollPre s now).recent_acks = s.recent_acks := by
  unfold pollPre heartbeatSend
  split <;> exact ⟨rfl, rfl, rfl, rfl⟩

theorem handle_ready_fields (s : VoiceState) (resp : Nat → List Nat) (r : Ready) :
    (handle_ready s resp r).1.heartbeat_interval = s.heartbeat_interval
    ∧ (handle_ready s resp r).1.secret_key = s.secret_key
    ∧ (handle_ready s resp r).1.lifecycle = s.lifecycle
    ∧ (handle_ready s resp r).1.recent_acks = s.recent_acks := by
  cases hg : get_encryption_mode r.modes with
  | error e => simp [handle_ready, hg]
  | ok m =>
    cases hip : parseIpv4 r.ip with
    | none => simp [handle_ready, hg, hip]
    | some x =>
      cases hd : discoveryLoop resp with
      | error e => simp [handle_ready, hg, hip, hd]
      | ok y =>
        obtain ⟨address, prt⟩ := y
        simp [handle_ready, hg, hip, hd]

/-! ## Demonstration run used by the handshake witness -/

/-- The bytes of the ASCII string "203.0.113.5". -/
def demoIpBytes : List Nat := [50, 48, 51, 46, 48, 46, 49, 49, 51, 46, 53]

/-- A well-formed 70-byte discovery response: 4 leading bytes, the
null-terminated IP "203.0.113.5", zero padding, port 50001 big-endian. -/
def demoDiscoveryResp : List Nat :=
  [0, 0, 0, 0] ++ demoIpBytes ++ List.replicate 53 0 ++ [195, 81]

/-- The READY payload of the S1 handshake scenario. -/
def demoReady : Ready :=
  { ssrc := 1, ip := "203.0.113.5", port := 50001,
    modes := ["xsalsa20_poly1305", "xsalsa20_poly1305_lite"] }

/-- A fresh protocol value for the demonstration run. -/
def demoInit : VoiceState := initialState "host" "uid" "sid" "sess" "tok"

/-- The state after the HELLO step of the demonstration run. -/
def demoS1 : VoiceState :=
  (poll demoInit 3 (fun _ => demoDiscoveryResp) (.text (.hello 41250))).1

/-- The state after the READY step of the demonstration run. -/
def demoS2 : VoiceState :=
  (poll demoS1 6 (fun _ => demoDiscoveryResp) (.text (.ready demoReady))).1

/-- The 32-byte session key [0, 1, ..., 31] of the S1 scenario. -/
def demoKey : List Nat := List.range 32

/-- The state change of the SESSION_DESCRIPTION arm of `poll`, named so that
proofs can refer to it. -/
def sessionDescriptionUpdate (s : VoiceState) (m : EncryptionMode) (key : List Nat) :
    VoiceState :=
  { s with encryption := m, secret_key := key, lifecycle := .Connected }

/-- C1: for every handshake in which the peer delivers HELLO, READY and
SESSION_DESCRIPTION in order (the READY step succeeding, the announced mode
parsing), the protocol ends with the lifecycle register Connected,
`secret_key` equal to the 32-byte key of SESSION_DESCRIPTION (hence non-zero
when that key is non-zero), and `heartbeat_interval = min(advertised, 5000)`
milliseconds. -/
theorem c1_handshake (endpoint user_id server_id session_id token : String)
    (interval t1 t2 t3 : Nat) (resp : Nat → List Nat) (r : Ready)
    (mode : String) (m : EncryptionMode) (key : List Nat) (s2 : VoiceState)
    (hready : poll ((poll (initialState endpoint user_id server_id session_id token) t1 resp
        (.text (.hello interval))).1) t2 resp (.text (.ready r)) = (s2, .ok ()))
    (hmode : EncryptionMode.from_str mode = .ok m) :
    (poll (initialState endpoint user_id server_id session_id token) t1 resp
        (.text (.hello interval))).2 = .ok ()
    ∧ (poll s2 t3 resp (.text (.sessionDescription mode key))).2 = .ok ()
    ∧ (poll s2 t3 resp (.text (.sessionDescription mode key))).1.lifecycle = .Connected
    ∧ (poll s2 t3 resp (.text (.sessionDescription mode key))).1.secret_key = key
    ∧ (poll s2 t3 resp (.text (.sessionDescription mode key))).1.heartbeat_interval
        = min interval 5000
    ∧ (key ≠ List.replicate 32 0 →
        (poll s2 t3 resp (.text (.sessionDescription mode key))).1.secret_key
          ≠ List.replicate 32 0) := by
  have h2 : handle_ready
      (pollPre ((poll (initialState endpoint user_id server_id session_id token) t1 resp
        (.text (.hello interval))).1) t2) resp r = (s2, .ok ()) := hready
  have hfst : (handle_ready
      (pollPre ((poll (initialState endpoint user_id server_id session_id token) t1 resp
        (.text (.hello interval))).1) t2) resp r).1 = s2 :=
    congrArg Prod.fst h2
  have hs2 : s2.heartbeat_interval = min interval 5000 := by
    rw [← hfst, (handle_ready_fields _ _ _).1, (pollPre_fields _ _).1]
    rfl
  have hsd : poll s2 t3 resp (.text (.sessionDescription mode key))
      = (sessionDescriptionUpdate (pollPre s2 t3) m key, .ok ()) := by
    simp only [poll]
    rw [hmode]
    rfl
  rw [hsd]
  exact ⟨rfl, rfl, rfl, rfl, (pollPre_fields s2 t3).1.trans hs2, fun hk => hk⟩

/-- Witness for C1: the S1 scenario run concretely — HELLO 41250, the READY
of `demoReady` with a well-formed discovery response, then SESSION_DESCRIPTION
with the lite mode and the key [0, ..., 31]. -/
theorem c1_handshake_witness :
    (poll demoInit 3 (fun _ => demoDiscoveryResp) (.text (.hello 41250))).2 = .ok ()
    ∧ (poll demoS2 9 (fun _ => demoDiscoveryResp)
        (.text (.sessionDescription "xsalsa20_poly1305_lite" demoKey))).2 = .ok ()
    ∧ (poll demoS2 9 (fun _ => demoDiscoveryResp)
        (.text (.sessionDescription "xsalsa20_poly1305_lite" demoKey))).1.lifecycle
        = .Connected
    ∧ (poll demoS2 9 (fun _ => demoDiscoveryResp)
        (.text (.sessionDescription "xsalsa20_poly1305_lite" demoKey))).1.secret_key
        = demoKey
    ∧ (poll demoS2 9 (fun _ => demoDiscoveryResp)
        (.text (.sessionDescription "xsalsa20_poly1305_lite" demoKey))).1.heartbeat_interval
        = min 41250 5000
    ∧ (demoKey ≠ List.replicate 32 0 →
        (poll demoS2 9 (fun _ => demoDiscoveryResp)
          (.text (.sessionDescription "xsalsa20_poly1305_lite" demoKey))).1.secret_key
          ≠ List.replicate 32 0) :=
  c1_handshake "host" "uid" "sid" "sess" "tok" 41250 3 6 9 (fun _ => demoDiscoveryResp)
    demoReady "xsalsa20_poly1305_lite" .XSalsa20Poly1305Lite demoKey demoS2
    (by decide) (by decide)

/-- C7: the heartbeat-ack ledger never exceeds 20 samples — a poll step that
processes HEARTBEAT_ACK appends one round-trip sample (the poll instant minus
the last heartbeat send), first dropping the oldest when the ledger already
holds 20, and every other poll step leaves the ledger unchanged. -/
theorem c7_ack_ledger (s : VoiceState) (now : Nat) (resp : Nat → List Nat)
    (input : PollInput) (h : s.recent_acks.length ≤ 20) :
    (poll s now resp input).1.recent_acks.length ≤ 20
    ∧ (input = .text .heartbeatAck →
        (poll s now resp input).1.recent_acks =
          (if s.recent_acks.length = 20 then s.recent_acks.drop 1 else s.recent_acks)
            ++ [now - (pollPre s now).last_heartbeat])
    ∧ (input ≠ .text .heartbeatAck →
        (poll s now resp input).1.recent_acks = s.recent_acks) := by
  have hpre := (pollPre_fields s now).2.2.2
  cases input with
  | timeout =>
    refine ⟨?_, (by intro hc; cases hc), fun _ => hpre⟩
    simpa [poll, hpre] using h
  | other =>
    refine ⟨?_, (by intro hc; cases hc), fun _ => hpre⟩
    simpa [poll, hpre] using h
  | closeFrame code =>
    refine ⟨?_, (by intro hc; cases hc), fun _ => hpre⟩
    simpa [poll, hpre] using h
  | text p =>
    cases p with
    | hello interval =>
      refine ⟨?_, (by intro hc; cases hc), fun _ => hpre⟩
      simpa [poll, hpre] using h
    | heartbeat =>
      refine ⟨?_, (by intro hc; cases hc), fun _ => ?_⟩
      · simpa [poll, heartbeatSend, hpre] using h
      · simpa [poll, heartbeatSend] using hpre
    | unhandled =>
      refine ⟨?_, (by intro hc; cases hc), fun _ => hpre⟩
      simpa [poll, hpre] using h
    | ready r =>
      have hr := (handle_ready_fields (pollPre s now) resp r).2.2.2
      refine ⟨?_, (by intro hc; cases hc), fun _ => ?_⟩
      · simpa [poll, hr, hpre] using h
      · simpa [poll, hr] using hpre
    | sessionDescription mode key =>
      refine ⟨?_, (by intro hc; cases hc), fun _ => ?_⟩
      · cases hm : EncryptionMode.from_str mode with
        | error e => simpa [poll, hm, hpre] using h
        | ok m => simpa [poll, hm, hpre] using h
      · cases hm : EncryptionMode.from_str mode with
        | error e => simpa [poll, hm] using hpre
        | ok m => simpa [poll, hm] using hpre
    | heartbeatAck =>
      refine ⟨?_, fun _ => ?_, (by intro hne; exact absurd rfl hne)⟩
      · by_cases h20 : (pollPre s now).recent_acks.length = 20
        · have : (poll s now resp (.text .heartbeatAck)).1.recent_acks =
              (pollPre s now).recent_acks.drop 1 ++ [now - (pollPre s now).last_heartbeat] := by
            simp [poll, h20]
          rw [this]
          simp only [List.length_append, List.length_drop, List.length_cons,
            List.length_nil, h20]
          omega
        · have hlen20 : s.recent_acks.length ≠ 20 := by
            rw [← hpre]; exact h20
          have heq : (poll s now resp (.text .heartbeatAck)).1.recent_acks =
              (pollPre s now).recent_acks ++ [now - (pollPre s now).last_heartbeat] := by
            simp [poll, h20]
          rw [heq, hpre, List.length_append]
          simp only [List.length_cons, List.length_nil]
          omega
      · rw [show (poll s now resp (.text .heartbeatAck)).1.recent_acks =
            ((if (pollPre s now).recent_acks.length = 20 then
                (pollPre s now).recent_acks.drop 1
              else (pollPre s now).recent_acks)
              ++ [now - (pollPre s now).last_heartbeat]) from by simp [poll]]
        rw [hpre]

/-- A protocol state with a full 20-sample ack ledger, used by the C7
witness. -/
def demoAckState : VoiceState :=
  { demoInit with recent_acks := List.replicate 20 9, last_heartbeat := 2 }

/-- Witness for C7 at a concrete state: a full 20-sample ledger rotates and
takes the new round-trip sample 6 - 2 = 4. -/
theorem c7_ack_ledger_witness :
    (poll demoAckState 6 (fun _ => []) (.text .heartbeatAck)).1.recent_acks.length ≤ 20
    ∧ ((.text .heartbeatAck : PollInput) = .text .heartbeatAck →
        (poll demoAckState 6 (fun _ => []) (.text .heartbeatAck)).1.recent_acks =
          (if demoAckState.recent_acks.length = 20 then demoAckState.recent_acks.drop 1
            else demoAckState.recent_acks)
            ++ [6 - (pollPre demoAckState 6).last_heartbeat])
    ∧ ((.text .heartbeatAck : PollInput) ≠ .text .heartbeatAck →
        (poll demoAckState 6 (fun _ => []) (.text .heartbeatAck)).1.recent_acks =
          demoAckState.recent_acks) :=
  c7_ack_ledger demoAckState 6 (fun _ => []) (.text .heartbeatAck) (by decide)

/-- C9 (implicit): `handle_ready` parses the advertised ip strictly as an
IPv4 address — whenever the mode list negotiates but the ip string is not a
dotted-quad IPv4 address (an IPv6 address included), the handshake fails with
the "invalid IP address" error. -/
theorem c9_ready_requires_ipv4 (s : VoiceState) (resp : Nat → List Nat) (r : Ready)
    (m : EncryptionMode) (hm : get_encryption_mode r.modes = .ok m)
    (hip : parseIpv4 r.ip = none) :
    (handle_ready s resp r).2 = .error (custom_error "invalid IP address") := by
  simp [handle_ready, hm, hip]

/-- Witness for C9: a READY advertising the valid IPv6 host address "::1"
with a parsable mode list fails with "invalid IP address". -/
theorem c9_ready_requires_ipv4_witness :
    (handle_ready demoInit (fun _ => [])
        { ssrc := 1, ip := "::1", port := 50001, modes := ["xsalsa20_poly1305"] }).2
      = .error (custom_error "invalid IP address") :=
  c9_ready_requires_ipv4 demoInit (fun _ => [])
    { ssrc := 1, ip := "::1", port := 50001, modes := ["xsalsa20_poly1305"] }
    .XSalsa20Poly1305 (by decide) (by decide)

/-- Counterexample to C8 as stated: with a player attached and the shared
lifecycle register Paused, `is_playing()` reads false ("not playing"), yet
`stop()` changes the connection state — at this input it leaves the register
Finished, not the Paused it started from. -/
theorem c8_stop_not_playing_counterexample :
    VoiceConnection.is_playing
        ⟨{ demoInit with lifecycle := .Paused }, true⟩ = false
    ∧ VoiceConnection.stop ⟨{ demoInit with lifecycle := .Paused }, true⟩
        ≠ ⟨{ demoInit with lifecycle := .Paused }, true⟩
    ∧ (VoiceConnection.stop
        ⟨{ demoInit with lifecycle := .Paused }, true⟩).protocol.lifecycle
        = .Finished := by
  decide

/-- C8 (amended): `stop()` is idempotent, and a no-op when no player exists;
`disconnect()` twice yields the same terminal close code (1000) both times,
with the second invocation observing the same recorded close_code and
Disconnected state as the first. -/
theorem c8_stop_disconnect_idempotent (c : VoiceConnection) :
    (c.player = false → c.stop = c)
    ∧ c.stop.stop = c.stop
    ∧ (c.disconnect.protocol.close_code = 1000
        ∧ c.disconnect.protocol.lifecycle = .Disconnected)
    ∧ (c.disconnect.disconnect.protocol.close_code = 1000
        ∧ c.disconnect.disconnect.protocol.lifecycle = .Disconnected) := by
  obtain ⟨p, pl⟩ := c
  cases pl <;>
    simp [VoiceConnection.stop, VoiceConnection.disconnect, close]

/-- C3: a close code is resumable exactly when it is not 1000, 4014 or 4015;
when the signalling loop ends with `Closed(code)`, the host future resolves
neutrally (null) for a resumable code and with `ConnectionClosed` for a code
in {1000, 4014, 4015}. -/
theorem c3_close_code_classification (code : Nat) :
    (code_can_be_handled code = true ↔ ¬(code = 1000 ∨ code = 4014 ∨ code = 4015))
    ∧ (run_resolution (.closed code) = .null ↔
        ¬(code = 1000 ∨ code = 4014 ∨ code = 4015))
    ∧ (run_resolution (.closed code) = .connectionClosed code ↔
        (code = 1000 ∨ code = 4014 ∨ code = 4015)) := by
  by_cases h1 : code = 1000
  · subst h1; decide
  by_cases h2 : code = 4014
  · subst h2; decide
  by_cases h3 : code = 4015
  · subst h3; decide
  have hb : code_can_be_handled code = true := by
    simp [code_can_be_handled, h1, h2, h3]
  simp [run_resolution, pyErrOf, hb, h1, h2, h3]

/-! ## Lemmas for UDP discovery (C6) -/

theorem positionZero_none (l : List Nat) (hl : ∀ b ∈ l, b ≠ 0) :
    positionZero l = none := by
  induction l with
  | nil => rfl
  | cons x xs ih =>
    have hx : x ≠ 0 := hl x (List.mem_cons_self x xs)
    simp only [positionZero, if_neg hx]
    rw [ih fun b hb => hl b (List.mem_cons_of_mem _ hb)]
    rfl

theorem positionZero_first (l : List Nat) (j : Nat) (hj : l.getD j 1 = 0)
    (hbefore : ∀ i, i < j → l.getD i 1 ≠ 0) :
    positionZero l = some j := by
  induction l generalizing j with
  | nil =>
    exact absurd hj (by simp)
  | cons x xs ih =>
    cases j with
    | zero =>
      have hx : x = 0 := by simpa using hj
      simp [positionZero, hx]
    | succ j' =>
      have hx : x ≠ 0 := by
        have := hbefore 0 (Nat.succ_pos _)
        simpa using this
      have hrec : positionZero xs = some j' := by
        refine ih j' (by simpa using hj) ?_
        intro i hi
        have := hbefore (i + 1) (Nat.succ_lt_succ hi)
        simpa using this
      simp [positionZero, hx, hrec]

theorem discoveryAttempts_all_err (resp : Nat → List Nat) :
    ∀ k n, (∀ i, i ≤ k → ∃ e, udp_discovery resp (n + i) = .error e) →
      discoveryAttempts resp n k = udp_discovery resp (n + k) := by
  intro k
  induction k with
  | zero =>
    intro n _
    simp [discoveryAttempts]
  | succ k ih =>
    intro n hall
    obtain ⟨e, he⟩ := hall 0 (Nat.zero_le _)
    rw [Nat.add_zero] at he
    have hrest : ∀ i, i ≤ k → ∃ e, udp_discovery resp (n + 1 + i) = .error e := by
      intro i hi
      have := hall (i + 1) (Nat.succ_le_succ hi)
      rwa [show n + (i + 1) = n + 1 + i by omega] at this
    calc discoveryAttempts resp n (k + 1)
        = discoveryAttempts resp (n + 1) k := by simp [discoveryAttempts, he]
      _ = udp_discovery resp (n + 1 + k) := ih (n + 1) hrest
      _ = udp_discovery resp (n + (k + 1)) := by rw [show n + 1 + k = n + (k + 1) by omega]

theorem discoveryAttempts_first_ok (resp : Nat → List Nat) :
    ∀ k n j, j ≤ k → (∀ i, i < j → ∃ e, udp_discovery resp (n + i) = .error e) →
      (∃ x, udp_discovery resp (n + j) = .ok x) →
      discoveryAttempts resp n k = udp_discovery resp (n + j) := by
  intro k
  induction k with
  | zero =>
    intro n j hj _ hok
    obtain rfl : j = 0 := Nat.le_zero.mp hj
    simp [discoveryAttempts]
  | succ k ih =>
    intro n j hj hbefore hok
    cases j with
    | zero =>
      obtain ⟨x, hx⟩ := hok
      rw [Nat.add_zero] at hx
      simp [discoveryAttempts, hx]
    | succ j' =>
      obtain ⟨e, he⟩ := hbefore 0 (Nat.succ_pos _)
      rw [Nat.add_zero] at he
      have hb : ∀ i, i < j' → ∃ e, udp_discovery resp (n + 1 + i) = .error e := by
        intro i hi
        have := hbefore (i + 1) (Nat.succ_lt_succ hi)
        rwa [show n + (i + 1) = n + 1 + i by omega] at this
      have ho : ∃ x, udp_discovery resp (n + 1 + j') = .ok x := by
        rwa [show n + 1 + j' = n + (j' + 1) by omega]
      calc discoveryAttempts resp n (k + 1)
          = discoveryAttempts resp (n + 1) k := by simp [discoveryAttempts, he]
        _ = udp_discovery resp (n + 1 + j') := ih (n + 1) j' (Nat.le_of_succ_le_succ hj) hb ho
        _ = udp_discovery resp (n + (j' + 1)) := by
            rw [show n + 1 + j' = n + (j' + 1) by omega]

theorem udp_discovery_request_layout (ssrc : Nat) :
    udp_discovery_request ssrc = [0, 1, 0, 70] ++ be32 ssrc ++ List.replicate 62 0 := by
  have h1 : listWrite (listWrite (List.replicate 70 0) 0 (be16 1)) 2 (be16 70)
      = [0, 1, 0, 70] ++ List.replicate 66 0 := by decide
  unfold udp_discovery_request
  rw [h1]
  unfold listWrite
  have h2 : (be32 ssrc).length = 4 := rfl
  rw [h2]
  have h3 : List.take 4 ([0, 1, 0, 70] ++ List.replicate 66 0) = [0, 1, 0, 70] := by decide
  have h4 : List.drop (4 + 4) ([0, 1, 0, 70] ++ List.replicate 66 0)
      = List.replicate 62 0 := by decide
  rw [h3, h4]

/-- Counterexample to C6 as stated: a 70-byte response whose only zero byte
sits at index 68 (the high port byte) — no null terminator within [4..68) —
is nonetheless parsed successfully, with a 64-byte "IP", because the source
scans all of `buffer[4..]`. -/
theorem c6_scan_range_counterexample :
    (∀ i, 4 ≤ i → i < 68 →
      ([7, 7, 7, 7] ++ List.replicate 64 97 ++ [0, 99] : List Nat).getD i 1 ≠ 0)
    ∧ parse_discovery_response ([7, 7, 7, 7] ++ List.replicate 64 97 ++ [0, 99])
        = .ok (List.replicate 64 97, 99) := by
  refine ⟨by decide, by decide⟩

/-- C6 (amended): UDP discovery sends the 70-byte request
`[type=1 BE][length=70 BE][ssrc BE][62 zeros]`; on a 70-byte response it
parses the IP as the null-terminated string at offset 4 — the scan for the
first zero byte running over all of `buffer[4..]`, the two port bytes at
68..69 included — reads the port big-endian from bytes 68 and 69, fails with
a parse error when the IP bytes are not valid UTF-8 or no zero byte exists in
`buffer[4..]`, and retries up to 5 times (6 attempts) before failing with the
last attempt's error. -/
theorem c6_discovery_amended (ssrc : Nat) (buf : List Nat) (resp : Nat → List Nat)
    (_hlen : buf.length = 70) :
    udp_discovery_request ssrc = [0, 1, 0, 70] ++ be32 ssrc ++ List.replicate 62 0
    ∧ ((∀ b ∈ buf.drop 4, b ≠ 0) →
        parse_discovery_response buf = .error (custom_error "could not find end of IP"))
    ∧ (∀ j, (buf.drop 4).getD j 1 = 0 → (∀ i, i < j → (buf.drop 4).getD i 1 ≠ 0) →
        parse_discovery_response buf =
          (if isValidUtf8 ((buf.drop 4).take j) then
            .ok ((buf.drop 4).take j, fromBe16 (buf.getD 68 0) (buf.getD 69 0))
          else .error (custom_error "invalid IP found (not UTF-8")))
    ∧ ((∀ i, i ≤ 5 → ∃ e, udp_discovery resp i = .error e) →
        discoveryLoop resp = udp_discovery resp 5)
    ∧ (∀ j, j ≤ 5 → (∀ i, i < j → ∃ e, udp_discovery resp i = .error e) →
        (∃ x, udp_discovery resp j = .ok x) →
        discoveryLoop resp = udp_discovery resp j) := by
  refine ⟨udp_discovery_request_layout ssrc, ?_, ?_, ?_, ?_⟩
  · intro hall
    unfold parse_discovery_response
    rw [positionZero_none _ hall]
  · intro j hj hbefore
    unfold parse_discovery_response
    rw [positionZero_first _ j hj hbefore]
  · intro hall
    have := discoveryAttempts_all_err resp 5 0 (by simpa using hall)
    simpa [discoveryLoop] using this
  · intro j hj hbefore hok
    have := discoveryAttempts_first_ok resp 5 0 j hj (by simpa using hbefore)
      (by simpa using hok)
    simpa [discoveryLoop] using this

/-- Witness for C6 at ssrc 1 and the demonstration discovery response. -/
theorem c6_discovery_amended_witness :
    udp_discovery_request 1 = [0, 1, 0, 70] ++ be32 1 ++ List.replicate 62 0 :=
  (c6_discovery_amended 1 demoDiscoveryResp (fun _ => demoDiscoveryResp) (by decide)).1


/-! ## `player.rs`: buffers, encryption and the packet builder -/

/-- Audio constants of player.rs: 48 kHz stereo, 20 ms frames. -/
def SAMPLING_RATE : Nat := 48000

/-- Channel count (player.rs). -/
def CHANNELS : Nat := 2

/-- Frame length in milliseconds (player.rs). -/
def FRAME_LENGTH : Nat := 20

/-- Samples per 20 ms frame: `(SAMPLING_RATE / 1000) * FRAME_LENGTH` = 960
(player.rs). -/
def SAMPLES_PER_FRAME : Nat := SAMPLING_RATE / 1000 * FRAME_LENGTH

/-- The scratch-buffer size of player.rs: 1275 + 24 + 12 + 24 + 16 + 12. -/
def MAX_BUFFER_SIZE : Nat := 1275 + 24 + 12 + 24 + 16 + 12

/-- The payload offset: the RTP header occupies bytes 0..12 (player.rs). -/
def BUFFER_OFFSET : Nat := 12

/-- Embedding of `InPlaceBuffer` (player.rs): a byte slice, the logical
length, and the capacity (`slice.len()` at construction). -/
structure InPlaceBuffer where
  slice : List Nat
  length : Nat
  capacity : Nat
deriving DecidableEq

/-- Embedding of `InPlaceBuffer::new` (player.rs). -/
def InPlaceBuffer.new (slice : List Nat) (length : Nat) : InPlaceBuffer :=
  { slice := slice, length := length, capacity := slice.length }

/-- Embedding of `Buffer::extend_from_slice for InPlaceBuffer` (player.rs):
fail when `length + other.len() > capacity`, leaving the buffer untouched,
else copy `other` at offset `length` and grow the length. -/
def InPlaceBuffer.extend_from_slice (b : InPlaceBuffer) (other : List Nat) :
    InPlaceBuffer × Except Unit Unit :=
  if b.length + other.length > b.capacity then
    (b, .error ())
  else
    ({ b with slice := listWrite b.slice b.length other,
              length := b.length + other.length }, .ok ())

/-- Embedding of `Buffer::truncate for InPlaceBuffer` (player.rs): zero the
tail of the backing slice and shrink the length. -/
def InPlaceBuffer.truncate (b : InPlaceBuffer) (len : Nat) : InPlaceBuffer :=
  if len < b.length then
    { b with slice := b.slice.take len ++ List.replicate (b.slice.length - len) 0,
             length := len }
  else b

/-- An abstract XSalsa20-Poly1305 secretbox: nonce and plaintext to
ciphertext-with-tag.  The real cipher (an external crate) satisfies
`(box nonce pt).length = pt.length + 16`; theorems that need the length law
take it as a hypothesis. -/
def SecretBox : Type := List Nat → List Nat → List Nat

/-- The crate's `encrypt_in_place` on a `Buffer`: make room for the 16-byte
tag through `extend_from_slice` (failing over capacity with the buffer
untouched), then overwrite the content with the boxed bytes. -/
def encrypt_in_place (box : SecretBox) (nonce : List Nat) (b : InPlaceBuffer) :
    InPlaceBuffer × Except Unit Unit :=
  match b.extend_from_slice (List.replicate 16 0) with
  | (b1, .error e) => (b1, .error e)
  | (b1, .ok _) =>
    ({ b1 with slice := listWrite b1.slice 0 (box nonce (b.slice.take b.length)) },
      .ok ())

/-- Embedding of `encrypt_xsalsa20_poly1305` (player.rs): nonce = the 12-byte
RTP header zero-padded to 24; the appended tail is the 24-byte nonce. -/
def encrypt_xsalsa20_poly1305 (box : SecretBox) (_lite : Nat) (header : List Nat)
    (data : InPlaceBuffer) : InPlaceBuffer × Except Unit Unit :=
  let nonce := header ++ List.replicate 12 0
  match encrypt_in_place box nonce data with
  | (d, .error e) => (d, .error e)
  | (d, .ok _) => d.extend_from_slice nonce

/-- Embedding of `encrypt_xsalsa20_poly1305_suffix` (player.rs): nonce = 24
random bytes (the parameter `rnd`); the appended tail is the nonce. -/
def encrypt_xsalsa20_poly1305_suffix (box : SecretBox) (rnd : List Nat) (_lite : Nat)
    (_header : List Nat) (data : InPlaceBuffer) : InPlaceBuffer × Except Unit Unit :=
  match encrypt_in_place box rnd data with
  | (d, .error e) => (d, .error e)
  | (d, .ok _) => d.extend_from_slice rnd

/-- Embedding of `encrypt_xsalsa20_poly1305_lite` (player.rs): nonce = the
4-byte big-endian counter zero-padded to 24; the appended tail is the 4-byte
counter only. -/
def encrypt_xsalsa20_poly1305_lite (box : SecretBox) (lite : Nat) (_header : List Nat)
    (data : InPlaceBuffer) : InPlaceBuffer × Except Unit Unit :=
  let nonce := be32 lite ++ List.replicate 20 0
  match encrypt_in_place box nonce data with
  | (d, .error e) => (d, .error e)
  | (d, .ok _) => d.extend_from_slice (nonce.take 4)

/-- Embedding of the `encrypter` function pointer of `AudioEncoder`
(player.rs), dispatched on the negotiated mode; `rnd` supplies the suffix
scheme's random nonce. -/
def encrypterFor (mode : EncryptionMode) (box : SecretBox) (rnd : List Nat)
    (lite : Nat) (header : List Nat) (data : InPlaceBuffer) :
    InPlaceBuffer × Except Unit Unit :=
  match mode with
  | .XSalsa20Poly1305 => encrypt_xsalsa20_poly1305 box lite header data
  | .XSalsa20Poly1305Suffix => encrypt_xsalsa20_poly1305_suffix box rnd lite header data
  | .XSalsa20Poly1305Lite => encrypt_xsalsa20_poly1305_lite box lite header data

/-- Embedding of the counter and buffer state of `AudioEncoder` (player.rs).
The opus coder and the cipher key live in external crates; the cipher enters
the model as the `SecretBox` parameter of `prepare_packet`, and the opus
output as the payload already loaded at `buffer[12..12+size]`. -/
structure AudioEncoder where
  sequence : Nat
  timestamp : Nat
  lite_nonce : Nat
  ssrc : Nat
  buffer : List Nat
deriving DecidableEq

/-- The RTP header `prepare_packet` writes (player.rs): 0x80, 0x78, then
sequence, timestamp and SSRC big-endian. -/
def rtpHeader (enc : AudioEncoder) : List Nat :=
  [0x80, 0x78] ++ be16 enc.sequence ++ be32 enc.timestamp ++ be32 enc.ssrc

/-- Embedding of `AudioEncoder::prepare_packet` (player.rs): write the header
at `buffer[0..12]`, encrypt the `size`-byte payload in place through an
`InPlaceBuffer` over `buffer[12..]`, advance `lite_nonce`, and return the
in-place buffer's length. -/
def prepare_packet (box : SecretBox) (mode : EncryptionMode) (rnd : List Nat)
    (enc : AudioEncoder) (size : Nat) : AudioEncoder × Except Unit Nat :=
  let header := rtpHeader enc
  let buf := listWrite enc.buffer 0 header
  let ipb := InPlaceBuffer.new (buf.drop BUFFER_OFFSET) size
  match encrypterFor mode box rnd enc.lite_nonce header ipb with
  | (d, .error e) => ({ enc with buffer := buf.take BUFFER_OFFSET ++ d.slice }, .error e)
  | (d, .ok _) =>
    ({ enc with buffer := buf.take BUFFER_OFFSET ++ d.slice,
                lite_nonce := (enc.lite_nonce + 1) % 2 ^ 32 }, .ok d.length)

/-- What the UDP socket does with one `send_to` call: delivery, a
WouldBlock/TimedOut drop, or another IO error. -/
inductive SendOutcome where
  | delivered
  | dropped
  | ioError
deriving DecidableEq

/-- Embedding of `AudioEncoder::send_opus_packet` (player.rs): advance the
sequence (wrapping u16), prepare the packet, send `buffer[0..size]` where
`size` is `prepare_packet`'s return, treat WouldBlock/TimedOut as a logged
drop, and advance the timestamp by `SAMPLES_PER_FRAME` (wrapping u32) only
after a successful send.  The third component is the datagram handed to
`send_to`, `none` when no send was attempted. -/
def send_opus_packet (box : SecretBox) (mode : EncryptionMode) (rnd : List Nat)
    (outcome : SendOutcome) (enc : AudioEncoder) (size : Nat) :
    AudioEncoder × Except Unit Unit × Option (List Nat) :=
  let enc := { enc with sequence := (enc.sequence + 1) % 2 ^ 16 }
  match prepare_packet box mode rnd enc size with
  | (enc1, .error e) => (enc1, .error e, none)
  | (enc1, .ok sz) =>
    let datagram := enc1.buffer.take sz
    match outcome with
    | .dropped => (enc1, .ok (), some datagram)
    | .ioError => (enc1, .error (), some datagram)
    | .delivered =>
      ({ enc1 with timestamp := (enc1.timestamp + SAMPLES_PER_FRAME) % 2 ^ 32 },
        .ok (), some datagram)


/-! ## Lemmas about `listWrite` (C10) -/

theorem listWrite_length (l : List Nat) (off : Nat) (src : List Nat)
    (h : off + src.length ≤ l.length) :
    (listWrite l off src).length = l.length := by
  unfold listWrite
  simp only [List.length_append, List.length_take, List.length_drop]
  omega

theorem listWrite_take (l : List Nat) (off : Nat) (src : List Nat) (h : off ≤ l.length) :
    (listWrite l off src).take off = l.take off := by
  unfold listWrite
  rw [List.append_assoc]
  have hl : (l.take off).length = off := by
    simp only [List.length_take]
    omega
  exact List.take_left' hl

theorem listWrite_getD (l : List Nat) (off : Nat) (src : List Nat) (i : Nat)
    (hi : i < src.length) (h : off ≤ l.length) :
    (listWrite l off src).getD (off + i) 0 = src.getD i 0 := by
  unfold listWrite
  rw [List.append_assoc]
  have hl : (l.take off).length = off := by
    simp only [List.length_take]
    omega
  have h1 : (l.take off).length ≤ off + i := by
    rw [hl]
    omega
  rw [List.getD_append_right _ _ _ _ h1, hl, Nat.add_sub_cancel_left]
  exact List.getD_append _ _ _ _ hi

/-- C10 (implicit): `extend_from_slice` on an `InPlaceBuffer` of length L and
capacity C fails exactly when L + other.len() > C, leaves the buffer
untouched on failure, and on success grows the length to L + other.len()
with the bytes of `other` copied at offset L and the prefix preserved. -/
theorem c10_extend_from_slice (b : InPlaceBuffer) (other : List Nat)
    (hwf : b.capacity = b.slice.length) (hle : b.length ≤ b.capacity) :
    ((b.extend_from_slice other).2 = .error () ↔ b.length + other.length > b.capacity)
    ∧ ((b.extend_from_slice other).2 = .error () → (b.extend_from_slice other).1 = b)
    ∧ ((b.extend_from_slice other).2 = .ok () →
        (b.extend_from_slice other).1.length = b.length + other.length
        ∧ (b.extend_from_slice other).1.capacity = b.capacity
        ∧ (b.extend_from_slice other).1.slice.length = b.slice.length
        ∧ (b.extend_from_slice other).1.slice.take b.length = b.slice.take b.length
        ∧ ∀ i, i < other.length →
            (b.extend_from_slice other).1.slice.getD (b.length + i) 0 = other.getD i 0) := by
  unfold InPlaceBuffer.extend_from_slice
  by_cases hc : b.length + other.length > b.capacity
  · simp only [if_pos hc]
    refine ⟨?_, ?_, ?_⟩ <;> simp [hc]
  · simp only [if_neg hc]
    have hfit : b.length + other.length ≤ b.slice.length := by omega
    refine ⟨?_, ?_, ?_⟩
    · simp [hc]
    · simp
    · intro _
      refine ⟨by trivial, by trivial, listWrite_length _ _ _ hfit,
        listWrite_take _ _ _ (by omega), ?_⟩
      intro i hi
      exact listWrite_getD _ _ _ i hi (by omega)


/-- The 8-byte buffer of the C10 witness, holding 3 bytes. -/
def c10Buf : InPlaceBuffer := InPlaceBuffer.new (List.replicate 8 0) 3

/-- Witness for C10: an 8-byte backing slice holding 3 bytes, extended by two
bytes — the extension succeeds, copies at offset 3 and preserves the prefix. -/
theorem c10_extend_from_slice_witness :
    ((c10Buf.extend_from_slice [5, 6]).2 = .error ()
        ↔ c10Buf.length + ([5, 6] : List Nat).length > c10Buf.capacity)
    ∧ ((c10Buf.extend_from_slice [5, 6]).2 = .error ()
        → (c10Buf.extend_from_slice [5, 6]).1 = c10Buf)
    ∧ ((c10Buf.extend_from_slice [5, 6]).2 = .ok ()
        → (c10Buf.extend_from_slice [5, 6]).1.length = c10Buf.length + ([5, 6] : List Nat).length
        ∧ (c10Buf.extend_from_slice [5, 6]).1.capacity = c10Buf.capacity
        ∧ (c10Buf.extend_from_slice [5, 6]).1.slice.length = c10Buf.slice.length
        ∧ (c10Buf.extend_from_slice [5, 6]).1.slice.take c10Buf.length
            = c10Buf.slice.take c10Buf.length
        ∧ ∀ i, i < ([5, 6] : List Nat).length →
            (c10Buf.extend_from_slice [5, 6]).1.slice.getD (c10Buf.length + i) 0
              = ([5, 6] : List Nat).getD i 0) :=
  c10_extend_from_slice c10Buf [5, 6] rfl (by decide)

/-! ## C4 and C5: the outbound packet -/

/-- The model secretbox used for concrete packet evaluations: a zero tag
prepended to the plaintext.  It satisfies the cipher's length law
`(box n pt).length = pt.length + 16`. -/
def boxDemo : SecretBox := fun _ pt => List.replicate 16 0 ++ pt

/-- The S2 encoder state: sequence 0, timestamp 0, ssrc 0xDEADBEEF, lite
nonce 7, over the zeroed scratch buffer. -/
def encS2 : AudioEncoder :=
  { sequence := 0, timestamp := 0, lite_nonce := 7, ssrc := 0xDEADBEEF,
    buffer := List.replicate MAX_BUFFER_SIZE 0 }

set_option maxRecDepth 100000 in
/-- C4 evaluated at its failing input (code bug): with sequence 0, timestamp
0, ssrc 0xDEADBEEF, Lite mode, lite nonce 7 and a 4-byte payload, the
datagram handed to `send_to` is `buffer[0..size]` where `size` is
`prepare_packet`'s return — the in-place buffer's length, which does not
count the 12-byte header.  The wire datagram therefore starts with the
header 80 78 00 01 00 00 00 00 DE AD BE EF as the claim says, but it is
truncated 12 bytes short: the big-endian lite nonce 00 00 00 07 is written
at buffer[32..36] and never sent, and the datagram's last 4 bytes are
ciphertext bytes (zeros under the model cipher), not 00 00 00 07. -/
theorem c4_nonce_tail_truncated :
    (send_opus_packet boxDemo .XSalsa20Poly1305Lite [] .delivered encS2 4).2.2
      = some ([0x80, 0x78, 0, 1, 0, 0, 0, 0, 0xDE, 0xAD, 0xBE, 0xEF]
          ++ List.replicate 12 0)
    ∧ (((send_opus_packet boxDemo .XSalsa20Poly1305Lite [] .delivered encS2 4).1.buffer.drop
          32).take 4 = [0, 0, 0, 7])
    ∧ ((send_opus_packet boxDemo .XSalsa20Poly1305Lite [] .delivered encS2 4).2.2.map
          fun l => l.drop (l.length - 4)) = some [0, 0, 0, 0]
    ∧ ([0, 0, 0, 0] : List Nat) ≠ [0, 0, 0, 7] := by
  refine ⟨by decide, by decide, by decide, by decide⟩

theorem prepare_packet_ok_fields (box : SecretBox) (mode : EncryptionMode)
    (rnd : List Nat) (enc : AudioEncoder) (size sz : Nat)
    (h : (prepare_packet box mode rnd enc size).2 = .ok sz) :
    (prepare_packet box mode rnd enc size).1.sequence = enc.sequence
    ∧ (prepare_packet box mode rnd enc size).1.timestamp = enc.timestamp
    ∧ (prepare_packet box mode rnd enc size).1.lite_nonce = (enc.lite_nonce + 1) % 2 ^ 32 := by
  simp only [prepare_packet] at h ⊢
  split at h
  next d e heq =>
    simp only [heq] at h ⊢
    cases h
  next d u heq =>
    simp only [heq]
    exact ⟨by trivial, by trivial, by trivial⟩

/-- C5: across every send attempt of the media pipeline, `sequence` advances
by 1 modulo 2^16 and `lite_nonce` by 1 modulo 2^32 whether the send is
delivered, dropped (WouldBlock/TimedOut) or fails, while `timestamp` advances
by exactly `SAMPLES_PER_FRAME` = 960 modulo 2^32 only after a delivered send
— a dropped send leaves it unchanged, diverging from `sequence`. -/
theorem c5_counter_advancement (box : SecretBox) (mode : EncryptionMode)
    (rnd : List Nat) (outcome : SendOutcome) (enc : AudioEncoder) (size : Nat)
    (hattempt : (send_opus_packet box mode rnd outcome enc size).2.2.isSome = true) :
    (send_opus_packet box mode rnd outcome enc size).1.sequence
      = (enc.sequence + 1) % 2 ^ 16
    ∧ (send_opus_packet box mode rnd outcome enc size).1.lite_nonce
      = (enc.lite_nonce + 1) % 2 ^ 32
    ∧ (outcome = .delivered →
        (send_opus_packet box mode rnd outcome enc size).1.timestamp
          = (enc.timestamp + SAMPLES_PER_FRAME) % 2 ^ 32)
    ∧ ((outcome = .dropped ∨ outcome = .ioError) →
        (send_opus_packet box mode rnd outcome enc size).1.timestamp = enc.timestamp) := by
  simp only [send_opus_packet] at hattempt ⊢
  split at hattempt
  next enc1 e heq =>
    exact Bool.noConfusion hattempt
  next enc1 sz heq =>
    have hprep := prepare_packet_ok_fields box mode rnd
      { enc with sequence := (enc.sequence + 1) % 2 ^ 16 } size sz
      (by rw [heq])
    have h1 : (prepare_packet box mode rnd
        { enc with sequence := (enc.sequence + 1) % 2 ^ 16 } size).1 = enc1 :=
      congrArg Prod.fst heq
    rw [h1] at hprep
    obtain ⟨hs, ht, hn⟩ := hprep
    cases outcome with
    | delivered =>
      refine ⟨hs, hn, fun _ => ?_, ?_⟩
      · exact congrArg (fun t => (t + SAMPLES_PER_FRAME) % 2 ^ 32) ht
      · rintro (h | h) <;> cases h
    | dropped =>
      refine ⟨hs, hn, ?_, fun _ => ht⟩
      intro h
      cases h
    | ioError =>
      refine ⟨hs, hn, ?_, fun _ => ht⟩
      intro h
      cases h

set_option maxRecDepth 100000 in
/-- Witness for C5 at a delivered send from the S2 state with a 4-byte
payload: sequence 0 to 1, lite nonce 7 to 8, timestamp 0 to 960. -/
theorem c5_counter_advancement_witness :
    (send_opus_packet boxDemo .XSalsa20Poly1305Lite [] .delivered encS2 4).1.sequence
      = (encS2.sequence + 1) % 2 ^ 16
    ∧ (send_opus_packet boxDemo .XSalsa20Poly1305Lite [] .delivered encS2 4).1.lite_nonce
      = (encS2.lite_nonce + 1) % 2 ^ 32
    ∧ ((.delivered : SendOutcome) = .delivered →
        (send_opus_packet boxDemo .XSalsa20Poly1305Lite [] .delivered encS2 4).1.timestamp
          = (encS2.timestamp + SAMPLES_PER_FRAME) % 2 ^ 32)
    ∧ (((.delivered : SendOutcome) = .dropped ∨ (.delivered : SendOutcome) = .ioError) →
        (send_opus_packet boxDemo .XSalsa20Poly1305Lite [] .delivered encS2 4).1.timestamp
          = encS2.timestamp) :=
  c5_counter_advancement boxDemo .XSalsa20Poly1305Lite [] .delivered encS2 4 (by decide)

end NativeVoice
